import Mathlib

/-!
Verification of the ipcamcorder recorder (src/ipcamcorder.py) against its
natural-language specification.

The development shallowly embeds the pieces of the source the claims are
about:

* `next_frame`          — IPCamera.next_frame (lines 100-123): the retry loop
  around requests.get + process_jpg, the stale-frame fallback, the re-raise
  under a set quit event, and the unbound-local path when the loop body never
  runs.
* `iter_frames`         — IPCamera.__iter__ (lines 52-81): the paced generator
  loop, modelled at the granularity of its per-iteration quit check and
  duration check (timing itself is abstracted; only the yield structure and
  the termination conditions matter to the claims).
* `filepath_generator_step` / `rotation_dirs` — Recorder.filepath_generator
  (lines 165-189): the per-rotation retention cleanup and new-filename
  construction, over a directory modelled as a listing of filenames.
* `run_trace` / `run_with_write_failures` — Recorder.run (lines 191-209): the
  open/write event structure of the recording loop (the source contains no
  close or release call, and no handler around video.write).
* `Recorder_init` / `IPCamera_init` — the constructors (lines 133-163 and
  30-50): the fps warning and the timeout computation 1.0 / fps.

Effects are made explicit: the quit Event is a Bool-valued schedule over the
points where the source reads it, network fetches and os.remove outcomes are
oracle functions, raising code returns explicit error values, and unbounded
while-loops take fuel (a `none` result means the loop is still running).
-/

namespace Ipcamcorder

/-! ## IPCamera.next_frame -/

/-- Outcome of one call to `IPCamera.next_frame`.
`ok image previousAfter errLogs`: the call returned `image`, leaving
`self.previous = previousAfter`, having printed `errLogs` error lines.
`raised`: the download exception was re-raised (the `if self.quit.is_set():
raise` branch).  `nameError`: the while loop exited without ever assigning
`image`, so `return image` raises UnboundLocalError. -/
inductive NFResult (α : Type) where
  | ok (image : α) (previousAfter : Option α) (errLogs : Nat)
  | raised (errLogs : Nat)
  | nameError
  deriving DecidableEq, Repr

/-- The body of `IPCamera.next_frame`.  Iteration `i` reads the quit event at
the loop head (modelled as `quit (2*i)`) and, inside the except branch, again
at `quit (2*i+1)`.  `fetch i` is attempt `i` of `requests.get` followed by
`process_jpg`: `some img` when it produces an image, `none` when it raises.
`previous` is `self.previous` on entry; `fuel` bounds the number of loop
iterations we unfold (`none` = the loop is still running after `fuel`
iterations); `logs` accumulates the number of error lines printed so far. -/
def next_frame_aux {α : Type} (quit : Nat → Bool) (fetch : Nat → Option α) :
    Option α → Nat → Nat → Nat → Option (NFResult α)
  | _, _, 0, _ => none
  | previous, i, fuel+1, logs =>
    if quit (2*i) then some NFResult.nameError
    else
      match fetch i with
      | some img => some (NFResult.ok img (some img) logs)
      | none =>
        match previous with
        | some p => some (NFResult.ok p (some p) (logs+1))
        | none =>
          if quit (2*i+1) then some (NFResult.raised (logs+1))
          else next_frame_aux quit fetch none (i+1) fuel (logs+1)

/-- `IPCamera.next_frame`: run the loop from its entry point. -/
def next_frame {α : Type} (quit : Nat → Bool) (fetch : Nat → Option α)
    (previous : Option α) (fuel : Nat) : Option (NFResult α) :=
  next_frame_aux quit fetch previous 0 fuel 0

/-- Unfolding equation for `next_frame_aux` at zero fuel. -/
theorem next_frame_aux_zero {α : Type} (quit : Nat → Bool)
    (fetch : Nat → Option α) (previous : Option α) (i logs : Nat) :
    next_frame_aux quit fetch previous i 0 logs = none := rfl

/-- Unfolding equation for `next_frame_aux` at positive fuel. -/
theorem next_frame_aux_succ {α : Type} (quit : Nat → Bool)
    (fetch : Nat → Option α) (previous : Option α) (i fuel logs : Nat) :
    next_frame_aux quit fetch previous i (fuel+1) logs =
      (if quit (2*i) then some NFResult.nameError
       else
         match fetch i with
         | some img => some (NFResult.ok img (some img) logs)
         | none =>
           match previous with
           | some p => some (NFResult.ok p (some p) (logs+1))
           | none =>
             if quit (2*i+1) then some (NFResult.raised (logs+1))
             else next_frame_aux quit fetch none (i+1) fuel (logs+1)) := rfl

/-- Claim C2: if a last-good frame is cached (`self.previous` is non-null) and
the fetch or decode fails, `next_frame` logs one warning line and returns the
cached previous frame rather than raising (and the cache is unchanged).
Stated for a call whose first attempt fails while shutdown has not been
requested at entry. -/
theorem claim_C2 {α : Type} (quit : Nat → Bool) (fetch : Nat → Option α)
    (p : α) (fuel : Nat) (hq : quit 0 = false) (hf : fetch 0 = none) :
    next_frame quit fetch (some p) (fuel + 1) =
      some (NFResult.ok p (some p) 1) := by
  rw [next_frame, next_frame_aux_succ]
  simp [hq, hf]

/-- Witness for C2 at a concrete input. -/
theorem claim_C2_witness :
    next_frame (fun _ => false) (fun _ => (none : Option Nat)) (some 7) 1 =
      some (NFResult.ok 7 (some 7) 1) :=
  claim_C2 (fun _ => false) (fun _ => none) 7 0 rfl rfl

/-- Any `ok` result of the loop entered with no cached frame carries an image
that some fetch attempt actually produced. -/
theorem next_frame_aux_ok_of_none {α : Type} (quit : Nat → Bool)
    (fetch : Nat → Option α) :
    ∀ fuel i logs f pr l,
      next_frame_aux quit fetch none i fuel logs = some (NFResult.ok f pr l) →
      ∃ j, fetch j = some f := by
  intro fuel
  induction fuel with
  | zero => intro i logs f pr l h; rw [next_frame_aux_zero] at h; exact absurd h (by simp)
  | succ n ih =>
    intro i logs f pr l h
    rw [next_frame_aux_succ] at h
    by_cases hq : quit (2*i) = true
    · simp [hq] at h
    · rw [if_neg (by simp [hq])] at h
      cases hf : fetch i with
      | some img =>
        rw [hf] at h
        simp at h
        exact ⟨i, by rw [hf, h.1]⟩
      | none =>
        rw [hf] at h
        by_cases hq2 : quit (2*i+1) = true
        · simp [hq2] at h
        · rw [if_neg (by simp [hq2])] at h
          exact ih (i+1) (logs+1) f pr l h

/-- With no cached frame and every fetch failing, once the (monotone) quit
event is set by check-time `N` the retry loop terminates — by re-raising the
download exception, or by exiting at the loop head (UnboundLocalError at
`return image`).  It never blocks past the point where it observes quit. -/
theorem next_frame_aux_shutdown {α : Type} (quit : Nat → Bool)
    (fetch : Nat → Option α)
    (hmono : ∀ m n, m ≤ n → quit m = true → quit n = true)
    (N : Nat) (hN : quit N = true) (hfail : ∀ j, fetch j = none) :
    ∀ fuel i logs, 1 ≤ fuel → N + 1 ≤ 2*i + fuel →
      (∃ l, next_frame_aux quit fetch none i fuel logs =
              some (NFResult.raised l)) ∨
      next_frame_aux quit fetch none i fuel logs = some NFResult.nameError := by
  intro fuel
  induction fuel with
  | zero => intro i logs h1 hb; omega
  | succ n ih =>
    intro i logs h1 hb
    rw [next_frame_aux_succ]
    by_cases hq : quit (2*i) = true
    · right; simp [hq]
    · rw [if_neg (by simp [hq]), hfail i]
      by_cases hq2 : quit (2*i+1) = true
      · left; exact ⟨logs+1, by simp [hq2]⟩
      · rw [if_neg (by simp [hq2])]
        -- quit is false at checks 2*i and 2*i+1, so by monotonicity
        -- 2*i+1 < N, which leaves at least one unit of fuel to recurse on
        have hNi : ¬ (N ≤ 2*i+1) := fun hle => hq2 (hmono N (2*i+1) hle hN)
        exact ih (i+1) (logs+1) (by omega) (by omega)

/-- Claim C3: with no cached last-good frame, `next_frame` never returns a
null frame — any returned image comes from a fetch attempt that actually
succeeded (so failures are retried until a success), and if every fetch fails
while the (monotone) shutdown signal becomes set, the retry loop terminates
and surfaces an error (the re-raised download exception, or the unbound-local
error at `return image`) rather than blocking forever. -/
theorem claim_C3 {α : Type} :
    (∀ (quit : Nat → Bool) (fetch : Nat → Option α) fuel i logs f pr l,
       next_frame_aux quit fetch none i fuel logs =
         some (NFResult.ok f pr l) →
       ∃ j, fetch j = some f)
    ∧ (∀ (quit : Nat → Bool) (fetch : Nat → Option α),
       (∀ m n, m ≤ n → quit m = true → quit n = true) →
       ∀ N, quit N = true → (∀ j, fetch j = none) →
       ∀ fuel, N + 1 ≤ fuel →
         (∃ l, next_frame quit fetch none fuel = some (NFResult.raised l)) ∨
         next_frame quit fetch none fuel = some NFResult.nameError) := by
  constructor
  · intro quit fetch fuel i logs f pr l h
    exact next_frame_aux_ok_of_none quit fetch fuel i logs f pr l h
  · intro quit fetch hmono N hN hfail fuel hb
    exact next_frame_aux_shutdown quit fetch hmono N hN hfail fuel 0 0
      (by omega) (by omega)

/-- Witness for C3 at concrete inputs: a loop whose first fetch succeeds
returns that fetched image, and a loop with all fetches failing under a quit
event set from check-time 1 onwards surfaces an error. -/
theorem claim_C3_witness :
    (∃ j : Nat, (fun _ : Nat => (some 5 : Option Nat)) j = some 5)
    ∧ ((∃ l, next_frame (fun t => decide (1 ≤ t)) (fun _ => (none : Option Nat))
               none 2 = some (NFResult.raised l)) ∨
       next_frame (fun t => decide (1 ≤ t)) (fun _ => (none : Option Nat))
         none 2 = some NFResult.nameError) := by
  refine ⟨?_, ?_⟩
  · exact (claim_C3 (α := Nat)).1 (fun _ => false) (fun _ => some 5) 1 0 0 5
      (some 5) 0 rfl
  · exact (claim_C3 (α := Nat)).2 (fun t => decide (1 ≤ t)) (fun _ => none)
      (fun m n hmn hm => by simp_all; omega) 1 (by decide) (fun j => rfl)
      2 (by omega)

/-- Claim C10: if the quit event is already set when `next_frame` is called,
the while loop body never runs, `image` is never assigned, and the call ends
with the UnboundLocalError at `return image` — even when a cached last-good
frame exists it is not returned. -/
theorem claim_C10 {α : Type} (quit : Nat → Bool) (fetch : Nat → Option α)
    (previous : Option α) (fuel : Nat) (hq : quit 0 = true) :
    next_frame quit fetch previous (fuel + 1) = some NFResult.nameError := by
  rw [next_frame, next_frame_aux_succ]
  simp [hq]

/-- Witness for C10 at a concrete input with a cached frame present. -/
theorem claim_C10_witness :
    next_frame (fun _ => true) (fun _ => (some 9 : Option Nat)) (some 7) 3 =
      some NFResult.nameError :=
  claim_C10 (fun _ => true) (fun _ => some 9) (some 7) 2 rfl

/-! ## IPCamera.__iter__ -/

/-- The paced generator loop of `IPCamera.__iter__`, at the granularity the
temporal claim is about.  Iteration `k` first reads the quit event at the
`while not self.quit.is_set()` head (`quit k`); if it is set the generator
terminates without yielding.  Otherwise the frame for iteration `k` is
acquired and yielded (`frame k` abstracts `next_frame` plus the pacing sleep),
and afterwards the duration check (`self.duration > 0 and start_time >
end_time`, modelled as `durEnd k`) may break the loop.  The result is the list
of frames the generator yields from iteration `k` on, within `fuel`
iterations. -/
def iter_frames {α : Type} (quit : Nat → Bool) (frame : Nat → α)
    (durEnd : Nat → Bool) : Nat → Nat → List α
  | 0, _ => []
  | fuel+1, k =>
    if quit k then []
    else
      frame k :: (if durEnd k then [] else iter_frames quit frame durEnd fuel (k+1))

/-- Claim C5: once the shutdown signal has been set (the quit schedule is
monotone and holds at iteration `k`), the paced frame sequence terminates
immediately without yielding: resumed at iteration `k` it yields nothing, and
a run from the start never yields more than `k` frames — no frame is yielded
by any iteration at which the signal is set. -/
theorem claim_C5 {α : Type} (quit : Nat → Bool) (frame : Nat → α)
    (durEnd : Nat → Bool)
    (hmono : ∀ m n, m ≤ n → quit m = true → quit n = true)
    (k : Nat) (hk : quit k = true) :
    (∀ fuel, iter_frames quit frame durEnd fuel k = [])
    ∧ (∀ fuel j, (iter_frames quit frame durEnd fuel j).length ≤ k - j) := by
  constructor
  · intro fuel
    cases fuel with
    | zero => rfl
    | succ n => rw [iter_frames]; simp [hk]
  · intro fuel
    induction fuel with
    | zero => intro j; simp [iter_frames]
    | succ n ih =>
      intro j
      rw [iter_frames]
      by_cases hq : quit j = true
      · simp [hq]
      · have hjk : j < k := by
          rcases Nat.lt_or_ge j k with h | h
          · exact h
          · exact absurd (hmono k j h hk) hq
        rw [if_neg (by simp [hq])]
        by_cases hd : durEnd j = true
        · simp [hd]; omega
        · rw [if_neg (by simp [hd])]
          have := ih (j+1)
          simp only [List.length_cons]
          omega

/-- Witness for C5 at a concrete input: quit set from iteration 2 onwards. -/
theorem claim_C5_witness :
    iter_frames (fun t => decide (2 ≤ t)) (fun k => k) (fun _ => false) 5 2 = []
    ∧ (iter_frames (fun t => decide (2 ≤ t)) (fun k => k) (fun _ => false) 5 0).length ≤ 2 := by
  have h := claim_C5 (fun t => decide (2 ≤ t)) (fun k => k) (fun _ => false)
    (fun m n hmn hm => by simp_all; omega) 2 (by decide)
  exact ⟨h.1 5, h.2 5 0⟩

/-! ## Recorder.filepath_generator

The output directory is modelled as its listing: a list of filenames
(`os.listdir`).  Python compares strings by code point, lexicographically;
`chars_lt` mirrors that order and `sort_names` mirrors `names.sort()`.
`os.remove` outcomes are an oracle `rmOk` (`false` = the call raised, which
the source logs and tolerates). -/

/-- Python `<` on single characters (code-point comparison). -/
def char_lt (x y : Char) : Bool := decide (x.toNat < y.toNat)

/-- Python `<` on strings as lists of characters: lexicographic by code
point, a proper initial segment is smaller. -/
def chars_lt : List Char → List Char → Bool
  | [], [] => false
  | [], _ :: _ => true
  | _ :: _, [] => false
  | x :: xs, y :: ys =>
    if char_lt x y then true
    else if char_lt y x then false
    else chars_lt xs ys

/-- Python `<=` on strings. -/
def str_le (a b : String) : Bool := !(chars_lt b.data a.data)

/-- Insert into a sorted list, keeping `str_le` order. -/
def insert_name (a : String) : List String → List String
  | [] => [a]
  | b :: bs => if str_le a b then a :: b :: bs else b :: insert_name a bs

/-- `names.sort()`: sort ascending in Python string order (insertion sort; any
comparison sort gives the same result on the duplicate-free listings a
filesystem produces). -/
def sort_names : List String → List String
  | [] => []
  | a :: as => insert_name a (sort_names as)

/-- `[0-9]` as a character class. -/
def is_digit (c : Char) : Bool := decide (48 ≤ c.toNat) && decide (c.toNat ≤ 57)

/-- `re.match` of the tail of the pattern `re.compile("%s_([0-9]8_[0-9]6).avi"
% self.name)` (the 8 and 6 are brace-quantified in the source) against what
follows the channel name: an underscore, eight digits, an underscore, six
digits, then `.` — which in a regex matches any character except a newline —
then the literal letters `avi`; `re.match` anchors only the start, so
anything may follow. -/
def match_tail (cs : List Char) : Bool :=
  match cs with
  | [] => false
  | c :: r1 =>
    (c == '_') && (r1.take 8).all is_digit && ((r1.take 8).length == 8) &&
      (match r1.drop 8 with
       | [] => false
       | c2 :: r2 =>
         (c2 == '_') && (r2.take 6).all is_digit && ((r2.take 6).length == 6) &&
           (match r2.drop 6 with
            | c3 :: c4 :: c5 :: c6 :: _ =>
              (c3 != '\n') && (c4 == 'a') && (c5 == 'v') && (c6 == 'i')
            | _ => false))

/-- Strip an expected literal from the head of a character list. -/
def drop_lit : List Char → List Char → Option (List Char)
  | [], rest => some rest
  | _ :: _, [] => none
  | c :: cs, d :: ds => if c == d then drop_lit cs ds else none

/-- `pattern.match(n)` for the filter in `filepath_generator`: the channel
name (taken literally; the source interpolates it into the regex unescaped,
so a name containing regex metacharacters would behave differently) followed
by `match_tail`. -/
def chan_match (chan n : String) : Bool :=
  match drop_lit chan.data n.data with
  | some rest => match_tail rest
  | none => false

/-- `"%s_%s.avi" % (self.name, date)` where `date` is
`datetime.strftime(datetime.now(), "%Y%m%d_%H%M%S")`, split here into its
eight-digit date half `d8` and six-digit time half `t6`. -/
def filename_of (chan d8 t6 : String) : String :=
  chan ++ "_" ++ d8 ++ "_" ++ t6 ++ ".avi"

/-- Everything one iteration of the `filepath_generator` loop body does. -/
structure RotationResult where
  /-- the names in the listing that matched the channel pattern -/
  names : List String
  /-- `names[0:rm_count]` after sorting: the removal attempts, in order -/
  rmList : List String
  /-- names for which `os.remove` succeeded (each gets a Removed log line) -/
  removedLog : List String
  /-- names for which `os.remove` raised (logged and tolerated) -/
  failedLog : List String
  /-- the directory listing after the cleanup loop -/
  dirAfterCleanup : List String
  /-- the filename of the path the generator yields -/
  newFilename : String
  deriving Repr, DecidableEq

/-- One iteration of `Recorder.filepath_generator` (lines 171-189): filter the
listing by the channel pattern, compute `rm_count = len(names) - cache`, sort
and delete the first `rm_count` names (tolerating failures, given by `rmOk`),
then build and yield the new filename from the current timestamp.  `cache`
models `self.cache` (a non-negative count; for `rm_count <= 0` the source
skips deletion, which coincides with truncated subtraction).  The listing is
a set of distinct names, so the per-name `os.remove` loop is a filter. -/
def filepath_generator_step (chan : String) (cache : Nat) (rmOk : String → Bool)
    (d8 t6 : String) (dir : List String) : RotationResult :=
  let names := dir.filter (fun n => chan_match chan n)
  let rmCount := names.length - cache
  let rmList := (sort_names names).take rmCount
  { names := names
    rmList := rmList
    removedLog := rmList.filter (fun n => rmOk n)
    failedLog := rmList.filter (fun n => !(rmOk n))
    dirAfterCleanup := dir.filter (fun n => !(rmList.contains n && rmOk n))
    newFilename := filename_of chan d8 t6 }

/-- The directory contents after `k` full rotations of one channel, starting
from an empty directory: rotation `k` runs the cleanup of
`filepath_generator`, then `Recorder.run` opens a segment file at the yielded
path.  `dates k` is the timestamp of rotation `k` as its two halves. -/
def rotation_dirs (chan : String) (cache : Nat) (rmOk : String → Bool)
    (dates : Nat → String × String) : Nat → List String
  | 0 => []
  | k+1 =>
    let r := filepath_generator_step chan cache rmOk (dates k).1 (dates k).2
      (rotation_dirs chan cache rmOk dates k)
    r.dirAfterCleanup ++ [r.newFilename]

/-- The directory contents immediately after the retention check of rotation
`k+1` (i.e. of the `k`-th loop iteration, counting from zero), before the new
segment file exists. -/
def rotation_after_check (chan : String) (cache : Nat) (rmOk : String → Bool)
    (dates : Nat → String × String) (k : Nat) : List String :=
  (filepath_generator_step chan cache rmOk (dates k).1 (dates k).2
    (rotation_dirs chan cache rmOk dates k)).dirAfterCleanup

/-- Timestamps for the concrete five-rotation scenario: five successive
seconds of one day. -/
def demo_dates (k : Nat) : String × String :=
  ("20240101",
    match k with
    | 0 => "000000"
    | 1 => "000001"
    | 2 => "000002"
    | 3 => "000003"
    | 4 => "000004"
    | _ => "000005")

/-! ### Order lemmas for the string comparison -/

/-- Python string `<` is asymmetric. -/
theorem chars_lt_asymm : ∀ a b : List Char,
    chars_lt a b = true → chars_lt b a = false := by
  intro a
  induction a with
  | nil => intro b h; cases b with
    | nil => simp [chars_lt] at h
    | cons y ys => rfl
  | cons x xs ih =>
    intro b h
    cases b with
    | nil => simp [chars_lt] at h
    | cons y ys =>
      rw [chars_lt] at h ⊢
      by_cases hxy : char_lt x y = true
      · have hyx : char_lt y x = false := by
          simp only [char_lt, decide_eq_true_eq] at hxy ⊢
          simp; omega
        rw [if_neg (by simp [hyx]), hxy]
        simp
      · rw [if_neg (by simp [hxy])] at h
        by_cases hyx : char_lt y x = true
        · simp [hyx] at h
        · rw [if_neg (by simp [hyx])] at h
          rw [if_neg (by simp [hyx]), if_neg (by simp [hxy])]
          exact ih ys h

/-- Co-transitivity of Python string `<`: a comparison chain through any
middle list. -/
theorem chars_lt_cotrans : ∀ c a b : List Char,
    chars_lt c a = true → chars_lt c b = true ∨ chars_lt b a = true := by
  intro c
  induction c with
  | nil =>
    intro a b h
    cases a with
    | nil => simp [chars_lt] at h
    | cons y ys =>
      cases b with
      | nil => right; exact h
      | cons z zs => left; rfl
  | cons x xs ih =>
    intro a b h
    cases a with
    | nil => simp [chars_lt] at h
    | cons y ys =>
      cases b with
      | nil => right; rfl
      | cons z zs =>
        rw [chars_lt] at h ⊢
        rw [show chars_lt (z :: zs) (y :: ys) =
          (if char_lt z y then true else if char_lt y z then false
            else chars_lt zs ys) from rfl]
        simp only [char_lt, decide_eq_true_eq] at *
        by_cases hxz : x.toNat < z.toNat
        · left; rw [if_pos (by simpa using hxz)]
        · by_cases hxy : x.toNat < y.toNat
          · -- head-strict on c vs a; z is not above x, so z is below y
            right
            have : z.toNat < y.toNat ∨ z.toNat = x.toNat := by omega
            rcases this with hzy | hzx
            · rw [if_pos (by simpa using hzy)]
            · rw [if_pos (by omega)]
          · rw [if_neg (by simpa using hxy)] at h
            by_cases hyx : y.toNat < x.toNat
            · simp [hyx] at h
            · rw [if_neg (by simpa using hyx)] at h
              -- heads x and y tie
              by_cases hzx : z.toNat < x.toNat
              · right
                rw [if_pos (by omega)]
              · -- heads x and z tie as well, hence y and z tie
                have hxz2 : x.toNat = z.toNat := by omega
                have hyz2 : y.toNat = z.toNat := by omega
                rw [if_neg (by omega), if_neg (by omega)]
                rw [if_neg (by omega), if_neg (by omega)]
                exact ih ys zs h

/-- `str_le` is total. -/
theorem str_le_total (a b : String) :
    str_le a b = true ∨ str_le b a = true := by
  by_cases h : chars_lt b.data a.data = true
  · right
    have := chars_lt_asymm _ _ h
    simp [str_le, this]
  · left
    simp [str_le] at h ⊢
    exact h

/-- `str_le` is transitive. -/
theorem str_le_trans (a b c : String) (h1 : str_le a b = true)
    (h2 : str_le b c = true) : str_le a c = true := by
  simp only [str_le, Bool.not_eq_true', Bool.not_eq_true] at *
  by_cases h : chars_lt c.data a.data = true
  · rcases chars_lt_cotrans c.data a.data b.data h with h3 | h3
    · rw [h3] at h2; cases h2
    · rw [h3] at h1; cases h1
  · simpa using h

/-! ### Sorting lemmas -/

/-- `insert_name` produces a permutation of consing. -/
theorem insert_name_perm (a : String) : ∀ l : List String,
    (insert_name a l).Perm (a :: l) := by
  intro l
  induction l with
  | nil => exact List.Perm.refl _
  | cons b bs ih =>
    rw [insert_name]
    by_cases h : str_le a b = true
    · rw [if_pos h]
    · rw [if_neg h]
      exact ((ih.cons b).trans (List.Perm.swap a b bs))

/-- `sort_names` permutes its input. -/
theorem sort_names_perm : ∀ l : List String, (sort_names l).Perm l := by
  intro l
  induction l with
  | nil => exact List.Perm.refl _
  | cons a as ih =>
    rw [sort_names]
    exact (insert_name_perm a (sort_names as)).trans (ih.cons a)

/-- Membership in an insertion. -/
theorem mem_insert_name {x a : String} {l : List String} :
    x ∈ insert_name a l ↔ x = a ∨ x ∈ l := by
  rw [(insert_name_perm a l).mem_iff]
  simp

/-- `insert_name` preserves sortedness. -/
theorem insert_name_sorted (a : String) : ∀ l : List String,
    l.Pairwise (fun u v => str_le u v = true) →
    (insert_name a l).Pairwise (fun u v => str_le u v = true) := by
  intro l
  induction l with
  | nil => intro _; simp [insert_name]
  | cons b bs ih =>
    intro hp
    rw [List.pairwise_cons] at hp
    rw [insert_name]
    by_cases h : str_le a b = true
    · rw [if_pos h]
      refine List.Pairwise.cons ?_ (List.Pairwise.cons hp.1 hp.2)
      intro y hy
      rcases List.mem_cons.mp hy with rfl | hy
      · exact h
      · exact str_le_trans a b y h (hp.1 y hy)
    · rw [if_neg h]
      refine List.Pairwise.cons ?_ (ih hp.2)
      intro y hy
      rcases mem_insert_name.mp hy with rfl | hy
      · rcases str_le_total y b with hab | hba
        · exact absurd hab h
        · exact hba
      · exact hp.1 y hy

/-- `sort_names` sorts in Python string order. -/
theorem sort_names_sorted : ∀ l : List String,
    (sort_names l).Pairwise (fun u v => str_le u v = true) := by
  intro l
  induction l with
  | nil => simp [sort_names]
  | cons a as ih => exact insert_name_sorted a (sort_names as) ih

/-! ### Counting lemmas for the retention bound -/

/-- Split a count by an auxiliary predicate. -/
theorem countP_and_split (l : List String) (p q : String → Bool) :
    l.countP (fun n => p n && q n) + l.countP (fun n => p n && !(q n)) =
      l.countP p := by
  induction l with
  | nil => simp
  | cons a t ih =>
    by_cases hp : p a = true <;> by_cases hq : q a = true <;>
      simp [List.countP_cons, hp, hq] <;> omega

/-- In a duplicate-free listing, the names belonging to a duplicate-free
subset of the listing number exactly that subset's size. -/
theorem countP_contains_of_nodup (dir rm : List String) (hdir : dir.Nodup)
    (hrm : rm.Nodup) (hsub : ∀ x ∈ rm, x ∈ dir) :
    dir.countP (fun n => rm.contains n) = rm.length := by
  rw [List.countP_eq_length_filter]
  have hnodup : (dir.filter (fun n => rm.contains n)).Nodup := hdir.filter _
  have hperm : (dir.filter (fun n => rm.contains n)).Perm rm := by
    rw [List.perm_ext_iff_of_nodup hnodup hrm]
    intro a
    simp only [List.mem_filter]
    constructor
    · rintro ⟨_, hc⟩
      simpa using hc
    · intro ha
      exact ⟨hsub a ha, by simpa using ha⟩
  exact hperm.length_eq

/-- The deletion list of a rotation: it is duplicate-free, contained in the
matching names, and everything on it matches the channel pattern. -/
theorem rmList_facts (chan : String) (cache : Nat) (rmOk : String → Bool)
    (d8 t6 : String) (dir : List String) (hdir : dir.Nodup) :
    ((filepath_generator_step chan cache rmOk d8 t6 dir).rmList.Nodup)
    ∧ (∀ x ∈ (filepath_generator_step chan cache rmOk d8 t6 dir).rmList,
        x ∈ (filepath_generator_step chan cache rmOk d8 t6 dir).names)
    ∧ (∀ x ∈ (filepath_generator_step chan cache rmOk d8 t6 dir).rmList,
        chan_match chan x = true) := by
  simp only [filepath_generator_step]
  set names := dir.filter (fun n => chan_match chan n) with hnames
  have hnames_nodup : names.Nodup := hdir.filter _
  have hsp : (sort_names names).Perm names := sort_names_perm names
  have hsorted_nodup : (sort_names names).Nodup := hsp.nodup_iff.mpr hnames_nodup
  refine ⟨List.Nodup.sublist (List.take_sublist _ _) hsorted_nodup, ?_, ?_⟩
  · intro x hx
    exact hsp.mem_iff.mp (List.mem_of_mem_take hx)
  · intro x hx
    have hxn : x ∈ names := hsp.mem_iff.mp (List.mem_of_mem_take hx)
    exact List.of_mem_filter hxn

/-- After the retention cleanup of one rotation, when every delete succeeds,
the number of names matching the channel pattern is at most the cache size. -/
theorem cleanup_count_le (chan : String) (cache : Nat) (rmOk : String → Bool)
    (d8 t6 : String) (dir : List String) (hdir : dir.Nodup)
    (hok : ∀ n, rmOk n = true) :
    (filepath_generator_step chan cache rmOk d8 t6 dir).dirAfterCleanup.countP
      (fun n => chan_match chan n) ≤ cache := by
  obtain ⟨hrm_nodup, hrm_sub, hrm_match⟩ :=
    rmList_facts chan cache rmOk d8 t6 dir hdir
  revert hrm_nodup hrm_sub hrm_match
  simp only [filepath_generator_step]
  set p := fun n => chan_match chan n with hp
  set names := dir.filter p with hnames
  set rmList := (sort_names names).take (names.length - cache) with hrmList
  intro hrm_nodup hrm_sub hrm_match
  have hok_rw : (fun n => !(rmList.contains n && rmOk n)) =
      (fun n => !(rmList.contains n)) := by
    funext n; rw [hok n, Bool.and_true]
  rw [hok_rw, List.countP_filter]
  have hsplit := countP_and_split dir p (fun n => rmList.contains n)
  have hcongr : dir.countP (fun n => p n && rmList.contains n) =
      dir.countP (fun n => rmList.contains n) := by
    apply List.countP_congr
    intro x _
    constructor
    · intro h; exact (Bool.and_eq_true _ _ |>.mp h).2
    · intro h
      have hx : x ∈ rmList := by simpa using h
      rw [Bool.and_eq_true]
      exact ⟨hrm_match x hx, h⟩
  have hsub_dir : ∀ x ∈ rmList, x ∈ dir := by
    intro x hx
    exact (List.mem_filter.mp (hrm_sub x hx)).1
  have hlen : dir.countP (fun n => rmList.contains n) = rmList.length :=
    countP_contains_of_nodup dir rmList hdir hrm_nodup hsub_dir
  have hnames_len : dir.countP p = names.length := by
    rw [hnames, List.countP_eq_length_filter]
  have hrm_len : rmList.length = names.length - cache := by
    rw [hrmList, List.length_take, (sort_names_perm names).length_eq]
    exact Nat.min_eq_left (Nat.sub_le _ _)
  rw [hcongr, hlen, hrm_len, hnames_len] at hsplit
  omega

/-- Claim C1: immediately after any rotation's retention check (with every
delete succeeding), the number of segment files matching the channel pattern
in the listing is at most `cache`; in particular, with `cache = 3`, after the
fifth rotation's check exactly 3 files matching the pattern of channel
`front` remain. -/
theorem claim_C1 :
    (∀ (chan : String) (cache : Nat) (rmOk : String → Bool)
       (d8 t6 : String) (dir : List String), dir.Nodup →
       (∀ n, rmOk n = true) →
       (filepath_generator_step chan cache rmOk d8 t6 dir).dirAfterCleanup.countP
         (fun n => chan_match chan n) ≤ cache)
    ∧ (rotation_after_check "front" 3 (fun _ => true) demo_dates 4).countP
        (fun n => chan_match "front" n) = 3 := by
  constructor
  · intro chan cache rmOk d8 t6 dir hdir hok
    exact cleanup_count_le chan cache rmOk d8 t6 dir hdir hok
  · decide

/-- Witness for C1 at a concrete listing. -/
theorem claim_C1_witness :
    (filepath_generator_step "front" 3 (fun _ => true) "20240102" "090000"
      ["front_20240101_000000.avi", "front_20240101_000001.avi",
       "front_20240101_000002.avi", "front_20240101_000003.avi",
       "other.txt"]).dirAfterCleanup.countP
      (fun n => chan_match "front" n) ≤ 3 :=
  claim_C1.1 "front" 3 (fun _ => true) "20240102" "090000"
    ["front_20240101_000000.avi", "front_20240101_000001.avi",
     "front_20240101_000002.avi", "front_20240101_000003.avi",
     "other.txt"] (by decide) (fun n => rfl)

/-- Claim C7: when the retention check finds more matching files than the
cache size, it attempts to delete exactly `count - cache` of them, namely the
lexicographically smallest ones (every name on the deletion list is at or
below every matching name kept); each successful deletion is logged on the
Removed line and each failed one on the Failed line; and a delete failure
never prevents the rotation from producing the new path — the yielded
filename is the timestamp-built name regardless of the delete outcomes. -/
theorem claim_C7 :
    (∀ (chan : String) (cache : Nat) (rmOk : String → Bool)
       (d8 t6 : String) (dir : List String),
       (cache < (filepath_generator_step chan cache rmOk d8 t6 dir).names.length →
         (filepath_generator_step chan cache rmOk d8 t6 dir).rmList.length =
           (filepath_generator_step chan cache rmOk d8 t6 dir).names.length - cache)
       ∧ (∀ x ∈ (filepath_generator_step chan cache rmOk d8 t6 dir).rmList,
          ∀ y ∈ (filepath_generator_step chan cache rmOk d8 t6 dir).names,
            y ∉ (filepath_generator_step chan cache rmOk d8 t6 dir).rmList →
            str_le x y = true)
       ∧ (∀ n ∈ (filepath_generator_step chan cache rmOk d8 t6 dir).rmList,
           (rmOk n = true →
             n ∈ (filepath_generator_step chan cache rmOk d8 t6 dir).removedLog)
           ∧ (rmOk n = false →
             n ∈ (filepath_generator_step chan cache rmOk d8 t6 dir).failedLog)))
    ∧ (∀ (chan : String) (cache : Nat) (rmOk rmOk2 : String → Bool)
       (d8 t6 : String) (dir : List String),
       (filepath_generator_step chan cache rmOk d8 t6 dir).newFilename =
         filename_of chan d8 t6
       ∧ (filepath_generator_step chan cache rmOk d8 t6 dir).newFilename =
         (filepath_generator_step chan cache rmOk2 d8 t6 dir).newFilename) := by
  constructor
  · intro chan cache rmOk d8 t6 dir
    simp only [filepath_generator_step]
    set names := dir.filter (fun n => chan_match chan n) with hnames
    set sorted := sort_names names with hsorted
    set rmList := sorted.take (names.length - cache) with hrmList
    refine ⟨?_, ?_, ?_⟩
    · intro hlt
      rw [hrmList, List.length_take, hsorted, (sort_names_perm names).length_eq]
      exact Nat.min_eq_left (Nat.sub_le _ _)
    · intro x hx y hy hynot
      have hsort := sort_names_sorted names
      have hsplit : sorted = rmList ++ sorted.drop (names.length - cache) := by
        rw [hrmList, List.take_append_drop]
      have hpw : (rmList ++ sorted.drop (names.length - cache)).Pairwise
          (fun u v => str_le u v = true) := by
        rw [← hsplit, hsorted]; exact hsort
      have hy_sorted : y ∈ sorted := (sort_names_perm names).mem_iff.mpr hy
      have hy_drop : y ∈ sorted.drop (names.length - cache) := by
        rw [hsplit] at hy_sorted
        rcases List.mem_append.mp hy_sorted with h | h
        · exact absurd h hynot
        · exact h
      exact (List.pairwise_append.mp hpw).2.2 x hx y hy_drop
    · intro n hn
      constructor
      · intro hok
        exact List.mem_filter.mpr ⟨hn, hok⟩
      · intro hnok
        exact List.mem_filter.mpr ⟨hn, by rw [hnok]; rfl⟩
  · intro chan cache rmOk rmOk2 d8 t6 dir
    exact ⟨rfl, rfl⟩

/-- Witness for C7 at a concrete listing with one delete failing. -/
theorem claim_C7_witness :
    ((filepath_generator_step "front" 1
        (fun n => !(n == "front_20240101_000000.avi"))
        "20240102" "090000"
        ["front_20240101_000001.avi", "front_20240101_000000.avi",
         "front_20240101_000002.avi"]).rmList.length = 3 - 1)
    ∧ ((filepath_generator_step "front" 1
        (fun n => !(n == "front_20240101_000000.avi"))
        "20240102" "090000"
        ["front_20240101_000001.avi", "front_20240101_000000.avi",
         "front_20240101_000002.avi"]).newFilename =
          filename_of "front" "20240102" "090000") := by
  have h := claim_C7
  constructor
  · exact (h.1 "front" 1 (fun n => !(n == "front_20240101_000000.avi"))
      "20240102" "090000"
      ["front_20240101_000001.avi", "front_20240101_000000.avi",
       "front_20240101_000002.avi"]).1 (by decide)
  · exact ((h.2 "front" 1 (fun n => !(n == "front_20240101_000000.avi"))
      (fun _ => true) "20240102" "090000"
      ["front_20240101_000001.avi", "front_20240101_000000.avi",
       "front_20240101_000002.avi"])).1

/-- A filename freshly built from an 8-digit date and a 6-digit time matches
the channel pattern used by the retention check. -/
theorem chan_match_filename (chan d8 t6 : String)
    (hd8 : d8.data.all is_digit = true) (hd8l : d8.data.length = 8)
    (ht6 : t6.data.all is_digit = true) (ht6l : t6.data.length = 6) :
    chan_match chan (filename_of chan d8 t6) = true := by
  have hdata : (filename_of chan d8 t6).data =
      chan.data ++ ('_' :: (d8.data ++ ('_' :: (t6.data ++ ['.', 'a', 'v', 'i'])))) := by
    simp [filename_of, String.data_append]
  have hdrop : ∀ cs rest : List Char, drop_lit cs (cs ++ rest) = some rest := by
    intro cs
    induction cs with
    | nil => intro rest; rfl
    | cons c cst ih => intro rest; simp [drop_lit, ih]
  have h1 : (d8.data ++ ('_' :: (t6.data ++ ['.', 'a', 'v', 'i']))).take 8 =
      d8.data := List.take_left' hd8l
  have h2 : (d8.data ++ ('_' :: (t6.data ++ ['.', 'a', 'v', 'i']))).drop 8 =
      '_' :: (t6.data ++ ['.', 'a', 'v', 'i']) := List.drop_left' hd8l
  have h3 : (t6.data ++ ['.', 'a', 'v', 'i']).take 6 = t6.data :=
    List.take_left' ht6l
  have h4 : (t6.data ++ ['.', 'a', 'v', 'i']).drop 6 = ['.', 'a', 'v', 'i'] :=
    List.drop_left' ht6l
  rw [chan_match, hdata, hdrop]
  show match_tail ('_' :: (d8.data ++ '_' :: (t6.data ++ ['.', 'a', 'v', 'i']))) = true
  rw [match_tail]
  rw [h1, h2]
  simp only [hd8, hd8l]
  rw [h3, h4]
  simp [ht6, ht6l]

/-- Claim C9: the retention check of a rotation counts and deletes only files
already in the listing before the new filename is produced — the segment file
about to be opened at the yielded path is not part of that accounting — so
once the new segment file exists the channel has exactly one more matching
file than the check left behind; with `cache = 3` this reaches `cache + 1 =
4` matching files right after the fifth rotation opens its segment, until the
next rotation's check. -/
theorem claim_C9 :
    (∀ (chan : String) (cache : Nat) (rmOk : String → Bool)
       (d8 t6 : String) (dir : List String),
       d8.data.all is_digit = true → d8.data.length = 8 →
       t6.data.all is_digit = true → t6.data.length = 6 →
       ((filepath_generator_step chan cache rmOk d8 t6 dir).dirAfterCleanup ++
         [(filepath_generator_step chan cache rmOk d8 t6 dir).newFilename]).countP
           (fun n => chan_match chan n) =
       (filepath_generator_step chan cache rmOk d8 t6 dir).dirAfterCleanup.countP
         (fun n => chan_match chan n) + 1)
    ∧ (rotation_dirs "front" 3 (fun _ => true) demo_dates 5).countP
        (fun n => chan_match "front" n) = 3 + 1 := by
  constructor
  · intro chan cache rmOk d8 t6 dir hd8 hd8l ht6 ht6l
    rw [List.countP_append]
    have hnew : (filepath_generator_step chan cache rmOk d8 t6 dir).newFilename =
        filename_of chan d8 t6 := rfl
    rw [hnew]
    simp [List.countP_cons, chan_match_filename chan d8 t6 hd8 hd8l ht6 ht6l]
  · decide

/-- Witness for C9 at a concrete rotation from an empty directory. -/
theorem claim_C9_witness :
    ((filepath_generator_step "front" 3 (fun _ => true) "20240101" "000000"
        []).dirAfterCleanup ++
      [(filepath_generator_step "front" 3 (fun _ => true) "20240101" "000000"
        []).newFilename]).countP (fun n => chan_match "front" n) =
    (filepath_generator_step "front" 3 (fun _ => true) "20240101" "000000"
      []).dirAfterCleanup.countP (fun n => chan_match "front" n) + 1 :=
  claim_C9.1 "front" 3 (fun _ => true) "20240101" "000000" []
    (by decide) (by decide) (by decide) (by decide)

/-! ## Recorder.run

`run` (lines 191-209) is modelled by the sequence of encoder operations it
performs: for each path yielded by `filepath_generator` it constructs a
`cv2.VideoWriter` (`openSeg`) and then calls `video.write` once per frame the
camera iterator yields (`writeFrame`).  The source contains no
`video.release()` or close call anywhere, so the only way an encoder is ever
finalised is the interpreter garbage-collecting the rebound local. -/

/-- An encoder operation observable in a run of one channel worker. -/
inductive REv where
  | openSeg (p : String)
  | writeFrame (p : String) (k : Nat)
  | closeSeg (p : String)
  deriving DecidableEq, Repr

/-- Is this event a close/release of an encoder? -/
def is_close : REv → Bool
  | REv.closeSeg _ => true
  | _ => false

/-- The operation trace of `Recorder.run`, given the rotation schedule: one
`(path, frameCount)` pair per iteration of the outer `for filepath in
self.filepath_generator()` loop (`frameCount` frames yielded by `self.camera`
before its duration elapses).  The loop body is
`video = cv2.VideoWriter(filepath, ...)` followed by the inner write loop —
and nothing else. -/
def run_trace : List (String × Nat) → List REv
  | [] => []
  | (p, k) :: rest =>
    (REv.openSeg p :: (List.range k).map (fun j => REv.writeFrame p j)) ++
      run_trace rest

/-- The sealing discipline claimed by the specification, part 1: between two
successive segment opens, the earlier segment is closed. -/
def sealed_before_reopen (t : List REv) : Prop :=
  ∀ (i j : Nat) (p q : String), i < j →
    t[i]? = some (REv.openSeg p) → t[j]? = some (REv.openSeg q) →
    ∃ k : Nat, i < k ∧ k < j ∧ t[k]? = some (REv.closeSeg p)

/-- The sealing discipline claimed by the specification, part 2: every opened
segment is closed by the time the worker exits (no dangling handle). -/
def sealed_at_exit (t : List REv) : Prop :=
  ∀ p, REv.openSeg p ∈ t → REv.closeSeg p ∈ t

/-- Counterexample to claim C4: in a two-rotation run (one frame per
segment), the worker neither closes the first segment before opening the
second nor seals anything by exit — the claimed sealing discipline fails on
the trace `Recorder.run` actually produces. -/
theorem claim_C4_counterexample :
    ¬ (sealed_before_reopen (run_trace [("a", 1), ("b", 1)])
       ∧ sealed_at_exit (run_trace [("a", 1), ("b", 1)])) := by
  intro h
  have hmem : REv.closeSeg "a" ∈ run_trace [("a", 1), ("b", 1)] :=
    h.2 "a" (by decide)
  exact absurd hmem (by decide)

/-- Claim C4, amended: `Recorder.run` never closes an encoder at all — its
trace contains no close event, whatever the rotation schedule.  At a rotation
boundary the next segment's `VideoWriter` is constructed first and the
previous one is only finalised afterwards, when rebinding `video` drops its
last reference to the garbage collector, and on shutdown the worker exits
with the active writer likewise left to interpreter finalisation. -/
theorem claim_C4 :
    ∀ segs : List (String × Nat),
      (run_trace segs).all (fun e => !(is_close e)) = true := by
  intro segs
  induction segs with
  | nil => rfl
  | cons s rest ih =>
    obtain ⟨p, k⟩ := s
    rw [run_trace, List.all_append, List.all_cons, ih]
    simp [is_close, List.all_map]

/-- Outcome of `Recorder.run` when `video.write` calls may raise. -/
inductive RunOutcome where
  | finished (events : List REv)
  | crashed (events : List REv) (p : String) (k : Nat)
  deriving DecidableEq, Repr

/-- The events recorded before the outcome. -/
def run_events : RunOutcome → List REv
  | RunOutcome.finished evs => evs
  | RunOutcome.crashed evs _ _ => evs

/-- The inner `for frame in self.camera: video.write(frame)` loop writing
frames `j, j+1, ...` (`n` of them) into segment `p`.  `wf p i = true` means
the write of frame `i` raises.  Result: the successful write events, and the
index of the first raising write if one occurred (the source has no handler
around `video.write`, so the exception aborts the loop at once). -/
def write_loop (p : String) (wf : String → Nat → Bool) : Nat → Nat → List REv × Option Nat
  | _, 0 => ([], none)
  | j, n+1 =>
    if wf p j then ([], some j)
    else
      let r := write_loop p wf (j+1) n
      (REv.writeFrame p j :: r.1, r.2)

/-- `Recorder.run` with fallible writes: each rotation opens its segment and
runs the write loop; an exception from `video.write` propagates out of both
loops uncaught, ending the worker (`crashed`). -/
def run_with_write_failures (wf : String → Nat → Bool) :
    List (String × Nat) → RunOutcome
  | [] => RunOutcome.finished []
  | (p, k) :: rest =>
    let r := write_loop p wf 0 k
    match r.2 with
    | some j => RunOutcome.crashed (REv.openSeg p :: r.1) p j
    | none =>
      match run_with_write_failures wf rest with
      | RunOutcome.finished evs2 =>
        RunOutcome.finished ((REv.openSeg p :: r.1) ++ evs2)
      | RunOutcome.crashed evs2 q j =>
        RunOutcome.crashed ((REv.openSeg p :: r.1) ++ evs2) q j

/-- Counterexample to claim C6: with a single write failure at frame 0 of a
three-frame segment (frames 1 and 2 would succeed), the claim says the frame
is skipped, the following frames are written, and the channel keeps
recording; the code instead aborts the worker at the first failure — frame 1
is never written. -/
theorem claim_C6_counterexample :
    run_with_write_failures (fun _ j => j == 0) [("a", 3)] =
      RunOutcome.crashed [REv.openSeg "a"] "a" 0
    ∧ ¬ (REv.writeFrame "a" 1 ∈
          run_events (run_with_write_failures (fun _ j => j == 0) [("a", 3)])) := by
  constructor
  · decide
  · decide

/-- A recorded failure index from the write loop is a genuinely raising
write. -/
theorem write_loop_some (p : String) (wf : String → Nat → Bool) :
    ∀ n j e, (write_loop p wf j n).2 = some e → wf p e = true := by
  intro n
  induction n with
  | zero => intro j e h; simp [write_loop] at h
  | succ m ih =>
    intro j e h
    rw [write_loop] at h
    by_cases hw : wf p j = true
    · rw [if_pos hw] at h
      simp at h
      rw [← h]; exact hw
    · rw [if_neg hw] at h
      exact ih (j+1) e h

/-- Every write event the loop records was a non-raising write. -/
theorem write_loop_mem (p : String) (wf : String → Nat → Bool) :
    ∀ n j q i, REv.writeFrame q i ∈ (write_loop p wf j n).1 →
      wf q i = false := by
  intro n
  induction n with
  | zero => intro j q i h; simp [write_loop] at h
  | succ m ih =>
    intro j q i h
    rw [write_loop] at h
    by_cases hw : wf p j = true
    · rw [if_pos hw] at h; simp at h
    · rw [if_neg hw] at h
      simp only [List.mem_cons] at h
      rcases h with h | h
      · cases h
        simpa using hw
      · exact ih (j+1) q i h

/-- Claim C6, amended: `Recorder.run` does not catch write failures at all —
the first raising `video.write` aborts the channel worker immediately with
that exception, having skipped nothing (every write event on the trace was a
successful write); there is no per-frame warning and no three-consecutive-
failure threshold.  In particular a single failure at frame 0 of a
three-frame segment kills the worker before frame 1. -/
theorem claim_C6 :
    (∀ (wf : String → Nat → Bool) (segs : List (String × Nat)) evs p j,
       run_with_write_failures wf segs = RunOutcome.crashed evs p j →
       wf p j = true ∧ (∀ q i, REv.writeFrame q i ∈ evs → wf q i = false))
    ∧ run_with_write_failures (fun _ j => j == 0) [("a", 3)] =
        RunOutcome.crashed [REv.openSeg "a"] "a" 0 := by
  constructor
  · intro wf segs
    induction segs with
    | nil => intro evs p j h; simp [run_with_write_failures] at h
    | cons s rest ih =>
      obtain ⟨p0, k0⟩ := s
      intro evs p j h
      rw [run_with_write_failures] at h
      cases h2 : (write_loop p0 wf 0 k0).2 with
      | some j0 =>
        rw [h2] at h
        simp only [RunOutcome.crashed.injEq] at h
        obtain ⟨hevs, hp, hj⟩ := h
        subst hp; subst hj
        refine ⟨write_loop_some p0 wf k0 0 j0 h2, ?_⟩
        intro q i hqi
        rw [← hevs] at hqi
        simp only [List.mem_cons] at hqi
        rcases hqi with hqi | hqi
        · cases hqi
        · exact write_loop_mem p0 wf k0 0 q i hqi
      | none =>
        rw [h2] at h
        cases hrest : run_with_write_failures wf rest with
        | finished evs2 => rw [hrest] at h; simp at h
        | crashed evs2 q2 j2 =>
          rw [hrest] at h
          simp only [RunOutcome.crashed.injEq] at h
          obtain ⟨hevs, hp, hj⟩ := h
          subst hp; subst hj
          obtain ⟨hwf, hmem⟩ := ih evs2 q2 j2 hrest
          refine ⟨hwf, ?_⟩
          intro q i hqi
          rw [← hevs] at hqi
          simp only [List.cons_append, List.mem_cons, List.mem_append] at hqi
          rcases hqi with hqi | hqi | hqi
          · cases hqi
          · exact write_loop_mem p0 wf k0 0 q i hqi
          · exact hmem q i hqi
  · decide

/-- Witness for the crash characterisation of C6 at the concrete input. -/
theorem claim_C6_witness :
    ((fun (_ : String) (j : Nat) => j == 0) "a" 0 = true)
    ∧ (∀ q i, REv.writeFrame q i ∈ [REv.openSeg "a"] →
        (fun (_ : String) (j : Nat) => j == 0) q i = false) :=
  claim_C6.1 (fun _ j => j == 0) [("a", 3)] [REv.openSeg "a"] "a" 0 (by decide)

/-! ## The constructors

`Recorder.__init__` (lines 133-163) warns when `fps < 3`, creates the output
directory, stores the fields, and constructs the `IPCamera`;
`IPCamera.__init__` (lines 30-50) computes `self.timeout = 1.0 / self.fps`,
which raises ZeroDivisionError exactly when `fps == 0`.  Neither constructor
contains any other fps validation.  Python floats are modelled as rationals
(every fps value the CLI can produce is one, and 1.0/fps at fps = 0 raises
rather than producing an infinity). -/

/-- `IPCamera.__init__`, reduced to the only fallible computation it
performs on `fps`: the timeout `1.0 / self.fps`. -/
def IPCamera_init (fps : ℚ) : Except String ℚ :=
  if fps = 0 then Except.error "ZeroDivisionError"
  else Except.ok (1 / fps)

/-- `Recorder.__init__` on its `fps` argument: records whether the `fps < 3`
warning was printed, then constructs the `IPCamera`, propagating its
exception.  Returns the warning flag and the camera timeout. -/
def Recorder_init (fps : ℚ) : Except String (Bool × ℚ) :=
  match IPCamera_init fps with
  | Except.error e => Except.error e
  | Except.ok t => Except.ok (decide (fps < 3), t)

/-- Counterexample to claim C8: `fps = -1` satisfies `fps ≤ 0`, yet the
recorder constructs successfully (only the low-fps warning fires, and the
camera is built with a negative timeout); no configuration error is raised
at construction time. -/
theorem claim_C8_counterexample :
    ((-1 : ℚ) ≤ 0) ∧ Recorder_init (-1) = Except.ok (true, -1) := by
  constructor
  · norm_num
  · norm_num [Recorder_init, IPCamera_init]

/-- Claim C8, amended: the only fps value rejected at construction time is
`fps = 0`, which raises ZeroDivisionError from the timeout computation
`1.0 / fps`; every negative fps is accepted at construction (with the
`fps < 3` warning printed and a negative timeout stored), the failure
surfacing only later at fetch time. -/
theorem claim_C8 :
    Recorder_init 0 = Except.error "ZeroDivisionError"
    ∧ (∀ fps : ℚ, fps < 0 → Recorder_init fps = Except.ok (true, 1 / fps)) := by
  constructor
  · rfl
  · intro fps h
    have hne : fps ≠ 0 := ne_of_lt h
    have h3 : fps < 3 := lt_trans h (by norm_num)
    simp [Recorder_init, IPCamera_init, hne, h3]

/-- Witness for C8 at `fps = -2`. -/
theorem claim_C8_witness :
    Recorder_init (-2) = Except.ok (true, 1 / (-2 : ℚ)) :=
  claim_C8.2 (-2) (by norm_num)

end Ipcamcorder
